import Mathlib

/-!
Shallow embedding of the protocol extension layer of the nnsight tracing
engine (`src/nnsight/tracing/protocols.py`): the protocol registry and the
five protocol implementations (Apply-Submodule, Lock, Grad, Swap, Bridge).

Python runtime values are embedded as the inductive type `Val`; the graph
and node container, which lives outside the verified source and is specified
only at its interface boundary, is embedded as explicit state records, and
the `util` helpers (`util.apply`, `util.fetch_attr`) are modelled from the
specification of their behavior.
-/

/-- Embedded Python runtime value: `None`, booleans, integers, strings,
tensors (abstracted to a payload plus a device index), references to graph
nodes (proxy objects), and lists of values. -/
inductive Val where
  | vnone : Val
  | vbool : Bool → Val
  | vint : Int → Val
  | vstr : String → Val
  | vtensor : Int → Nat → Val
  | vref : String → Val
  | vlist : List Val → Val

mutual
/-- Modelled from the spec: `util.apply(value, fn, torch.Tensor)` applies `fn`
to every tensor leaf of a nested value, leaving everything else in place. -/
def mapTensors (f : Int → Nat → Val) : Val → Val
  | .vtensor d dev => f d dev
  | .vlist xs => .vlist (mapTensorsList f xs)
  | v => v
def mapTensorsList (f : Int → Nat → Val) : List Val → List Val
  | [] => []
  | x :: xs => mapTensors f x :: mapTensorsList f xs
end

mutual
/-- Modelled from the spec: the `_device` scan in `SwapProtocol.get_swap` runs
`util.apply(value, _device, torch.Tensor)`, overwriting a `device` variable at
every tensor encountered; the result is the device of the last tensor in
traversal order, or `none` when the value contains no tensor. -/
def lastDevice : Val → Option Nat → Option Nat
  | .vtensor _ dev, _ => some dev
  | .vlist xs, acc => lastDeviceList xs acc
  | _, acc => acc
def lastDeviceList : List Val → Option Nat → Option Nat
  | [], acc => acc
  | x :: xs, acc => lastDeviceList xs (lastDevice x acc)
end

/-- Device of the input value as recorded by `get_swap`. -/
def findDevice (v : Val) : Option Nat := lastDevice v none

mutual
/-- Modelled from the spec: `util.apply(value, lambda x: x.value, type(swap))`
replaces every node reference inside a stored value by that node's real value
(the replacement is not traversed again). `env` gives each node's value. -/
def unwrapRefs (env : String → Val) : Val → Val
  | .vref n => env n
  | .vlist xs => .vlist (unwrapRefsList env xs)
  | v => v
def unwrapRefsList (env : String → Val) : List Val → List Val
  | [] => []
  | x :: xs => unwrapRefs env x :: unwrapRefsList env xs
end

/-- Relocation step of `get_swap`: `util.apply(value, _to, torch.Tensor)` moves
every tensor in the replacement to the recorded device. -/
def relocate (dev : Nat) (v : Val) : Val := mapTensors (fun d _ => .vtensor d dev) v

/-- An argument of a graph node: either a literal embedded value or a
reference to another node of the graph (a proxy). -/
inductive Arg where
  | lit : Val → Arg
  | ref : String → Arg

/-- Modelled from the spec: graph node record at the engine interface —
`target`, `args`/`kwargs`, `proxy_value` (absent = `inspect._empty`), and the
real `value` (absent until executed). -/
structure ANode where
  target : String
  args : List Arg
  kwargs : List (String × Arg)
  proxy_value : Option Val
  value : Option Val

/-- Modelled from the spec: a sub-computation object — a `forward` function,
named child sub-modules, and the devices of its parameters in order. -/
inductive NnModule where
  | mk : (List Val → List (String × Val) → Val) → List (String × NnModule) → List Nat → NnModule

def NnModule.fwd : NnModule → (List Val → List (String × Val) → Val)
  | .mk f _ _ => f

def NnModule.subs : NnModule → List (String × NnModule)
  | .mk _ s _ => s

def NnModule.params : NnModule → List Nat
  | .mk _ _ p => p

/-- Attribute lookup along an already-split path: `getattr` chained over the
path components, failing on a missing attribute. -/
def fetchAttrPath : NnModule → List String → Option NnModule
  | m, [] => some m
  | m, c :: cs =>
    match m.subs.lookup c with
    | some child => fetchAttrPath child cs
    | none => none

/-- Splitting helper mirroring Python's `str.split` with separator a dot. -/
def splitDotsAux : List Char → List Char → List String
  | [], acc => [String.mk acc.reverse]
  | c :: cs, acc =>
    if c = '.' then String.mk acc.reverse :: splitDotsAux cs []
    else splitDotsAux cs (c :: acc)

/-- Modelled from the spec: `util.fetch_attr(obj, target)` splits `target` on
dots and follows attributes from `obj`. -/
def fetchAttr (m : NnModule) (path : String) : Option NnModule :=
  fetchAttrPath m (splitDotsAux path.toList [])

/-- Graph state for the Apply-Submodule protocol: the validation flag, the
`nnsight_root_module` attachment slot (absent when `set_module` never ran),
and the node store (name to node). -/
structure AGraph where
  validate : Bool
  root_module : Option NnModule
  nodes : List (String × ANode)

/-- Resolution of one argument to a real value: literals stand for
themselves, node references resolve through the environment (the node's
`value`), failing when the node has no value yet. -/
def resolveArg (env : String → Option Val) : Arg → Option Val
  | .lit v => some v
  | .ref n => env n

/-- Modelled from the spec: `node.prepare_inputs()` resolves every argument
node to its concrete value before use, failing if any is unresolved. -/
def resolveArgs (env : String → Option Val) : List Arg → Option (List Val)
  | [] => some []
  | a :: as => (resolveArg env a).bind fun v => (resolveArgs env as).map fun vs => v :: vs

def resolveKwargs (env : String → Option Val) : List (String × Arg) →
    Option (List (String × Val))
  | [] => some []
  | p :: ps => (resolveArg env p.2).bind fun v => (resolveKwargs env ps).map fun vs => (p.1, v) :: vs

/-- Environment of real node values of a graph. -/
def nodeEnv (g : AGraph) (n : String) : Option Val :=
  (g.nodes.lookup n).bind (fun nd => nd.value)

/-- Environment of proxy (placeholder) node values of a graph. -/
def proxyEnv (g : AGraph) (n : String) : Option Val :=
  (g.nodes.lookup n).bind (fun nd => nd.proxy_value)

/-- Modelled from the spec: `graph.create(target, proxy_value, args, kwargs)`
allocates a new node under a fresh name and returns it. -/
def graphCreate (g : AGraph) (target : String) (pv : Option Val) (args : List Arg)
    (kwargs : List (String × Arg)) : AGraph × String × ANode :=
  let name := target ++ "_" ++ toString g.nodes.length
  let node : ANode := { target := target, args := args, kwargs := kwargs,
                        proxy_value := pv, value := none }
  ({ g with nodes := g.nodes ++ [(name, node)] }, name, node)

/-- `ApplyModuleProtocol.set_module`: writes the root object under the
reserved attachment key `nnsight_root_module`. -/
def ApplyModuleProtocol.set_module (g : AGraph) (m : NnModule) : AGraph :=
  { g with root_module := some m }

/-- `ApplyModuleProtocol.get_module`: reads the root object from the reserved
attachment key; a missing key is a `KeyError`, embedded as `none`. -/
def ApplyModuleProtocol.get_module (g : AGraph) : Option NnModule :=
  g.root_module

/-- `ApplyModuleProtocol.call_module`: fetches the sub-computation by
attribute path from the root module of the graph and invokes its forward. -/
def ApplyModuleProtocol.call_module (g : AGraph) (module_path : String)
    (args : List Val) (kwargs : List (String × Val)) : Option Val := do
  let root ← ApplyModuleProtocol.get_module g
  let m ← fetchAttr root module_path
  return m.fwd args kwargs

/-- `ApplyModuleProtocol.execute`: resolves the argument nodes to real
values, splits off the first argument as the module path, calls the
sub-computation, and sets the result as the node's value. -/
def ApplyModuleProtocol.execute (g : AGraph) (node : ANode) : Option ANode := do
  let args ← resolveArgs (nodeEnv g) node.args
  let kwargs ← resolveKwargs (nodeEnv g) node.kwargs
  match args with
  | .vstr module_path :: rest => do
      let output ← ApplyModuleProtocol.call_module g module_path rest kwargs
      return { node with value := some output }
  | _ => none

/-- Device-resolution step of `ApplyModuleProtocol.add` under validation:
`next(module.parameters()).device` inside a try block — any failure (missing
root module, no parameters) is caught and yields `None`. -/
def resolveDevice (g : AGraph) : Option Nat := do
  let m ← ApplyModuleProtocol.get_module g
  m.params.head?

/-- Modelled from the spec: `Node.prepare_proxy_values(args, device)` lifts
each argument into its placeholder value (a node reference contributes its
`proxy_value`), with tensors placed on the resolved device when known. -/
def prepareProxyValues (g : AGraph) (device : Option Nat) (args : List Arg) :
    Option (List Val) := do
  let vs ← resolveArgs (proxyEnv g) args
  match device with
  | some d => return vs.map (relocate d)
  | none => return vs

def prepareProxyKwargs (g : AGraph) (device : Option Nat) (kwargs : List (String × Arg)) :
    Option (List (String × Val)) := do
  let vs ← resolveKwargs (proxyEnv g) kwargs
  match device with
  | some d => return vs.map (fun p => (p.1, relocate d p.2))
  | none => return vs

/-- `ApplyModuleProtocol.add`: when validating, resolves the device (failure
degrading to unknown), simulates the call on placeholder arguments to obtain
a `proxy_value`, and creates the node; when not validating, the proxy value
is left unset (`inspect._empty`). Failure of the simulated call itself
aborts the construction. -/
def ApplyModuleProtocol.add (g : AGraph) (module_path : String) (args : List Arg)
    (kwargs : List (String × Arg)) : Option (AGraph × String × ANode) :=
  if g.validate then do
    let device := resolveDevice g
    let pargs ← prepareProxyValues g device args
    let pkwargs ← prepareProxyKwargs g device kwargs
    let value ← ApplyModuleProtocol.call_module g module_path pargs pkwargs
    return graphCreate g "module" (some value) (.lit (.vstr module_path) :: args) kwargs
  else
    some (graphCreate g "module" none (.lit (.vstr module_path) :: args) kwargs)

/-- `LockProtocol.add`: creates a node in the same graph whose single
argument is the given node and whose proxy value is `None`. -/
def LockProtocol.add (g : AGraph) (nodeName : String) : AGraph × String × ANode :=
  graphCreate g "lock" (some .vnone) [.ref nodeName] []

/-- Snapshot of the graph state a protocol `execute` may touch: every node's
value, plus the per-graph attachment slots used by the protocols. -/
structure GState where
  values : String → Option Val
  swapAtt : Option String
  counterAtt : Option Nat

/-- `Protocol.execute` as inherited by `LockProtocol`: the body is `pass`. -/
def LockProtocol.execute (st : GState) (_nodeName : String) : GState :=
  st

/-- Swap node record: the stored replacement (its `args[1]`) and the node's
own value. -/
structure SwapNodeRec where
  stored : Val
  value : Option Val

/-- Graph state for the Swap and Grad protocols: the `nnsight_swap`
attachment (holding `None` or the active swap node — both key-absent and
key-to-`None` read back as "no active swap" through `attachments.get`), the
swap nodes of the graph, and the values of the nodes referenced inside
stored replacements. -/
structure SwapGraph where
  attachment : Option String
  swapNodes : String → SwapNodeRec
  env : String → Val

/-- Value update of one swap node (`node.set_value`). -/
def setSwapValue (g : SwapGraph) (n : String) (v : Option Val) : SwapGraph :=
  { g with swapNodes := fun m =>
      if m = n then { g.swapNodes m with value := v } else g.swapNodes m }

/-- `SwapProtocol.execute`: deactivates the currently active swap attachment,
if any, by setting that node's value to `False`, then installs the executing
node as the graph's active swap attachment. -/
def SwapProtocol.execute (g : SwapGraph) (n : String) : SwapGraph :=
  let g1 :=
    match g.attachment with
    | some m => setSwapValue g m (some (.vbool false))
    | none => g
  { g1 with attachment := some n }

/-- `SwapProtocol.get_swap`: with no active swap, returns the input
unchanged; with an active swap, records the device of the input, unwraps the
stored replacement to real values, relocates it to the recorded device when
one was found, sets the swap node's value to `True`, clears the active-swap
attachment, and returns the replacement. -/
def SwapProtocol.get_swap (g : SwapGraph) (value : Val) : SwapGraph × Val :=
  match g.attachment with
  | none => (g, value)
  | some n =>
    let device := findDevice value
    let v0 := unwrapRefs g.env (g.swapNodes n).stored
    let v1 :=
      match device with
      | some d => relocate d v0
      | none => v0
    let g1 := setSwapValue g n (some (.vbool true))
    ({ g1 with attachment := none }, v1)

/-- Iterated consultation: a sequence of `get_swap` calls threading the graph
state, returning the final state and the value each consultation returned. -/
def consultList (g : SwapGraph) : List Val → SwapGraph × List Val
  | [] => (g, [])
  | v :: vs =>
    let p := SwapProtocol.get_swap g v
    let q := consultList p.1 vs
    (q.1, p.2 :: q.2)

/-- State of one registered Grad callback: the mutable `backward_idx`
captured by the closure, the Grad node's own value, whether the hook is
still registered, and the graph state consulted through `get_swap`. -/
structure GradSt where
  backward_idx : Int
  nodeValue : Option Val
  hookActive : Bool
  graph : SwapGraph

/-- `GradProtocol.execute`: resolves `[tensor, backward_idx]` and registers
the `grad` callback on the tensor; the registered-callback state starts at
the captured counter, with the Grad node's value unset. -/
def GradProtocol.execute (g : SwapGraph) (backward_idx : Int) : GradSt :=
  { backward_idx := backward_idx, nodeValue := none, hookActive := true, graph := g }

/-- The `grad` closure of `GradProtocol.execute`, one invocation: at counter
zero it sets the node's value to the incoming gradient, consults `get_swap`
only when the node has an attached listener, marks the counter `-1`, removes
the hook and returns the (possibly replaced) gradient; otherwise it
decrements the counter and returns `None` (no replacement). -/
def gradCallback (attached : Bool) (st : GradSt) (value : Val) : GradSt × Option Val :=
  if st.backward_idx = 0 then
    let st1 := { st with nodeValue := some value }
    let gv := if attached then SwapProtocol.get_swap st1.graph value else (st1.graph, value)
    ({ st1 with backward_idx := -1, hookActive := false, graph := gv.1 }, some gv.2)
  else
    ({ st with backward_idx := st.backward_idx - 1 }, none)

/-- A sequence of invocations of the same Grad callback, in traversal order,
returning the final state and what each invocation returned. -/
def gradRun (attached : Bool) (st : GradSt) : List Val → GradSt × List (Option Val)
  | [] => (st, [])
  | v :: vs =>
    let p := gradCallback attached st v
    let q := gradRun attached p.1 vs
    (q.1, p.2 :: q.2)

/-- `GradProtocol.add`: reads the per-graph `nnsight_backward_idx` counter
attachment (default 0) and creates a node mirroring the input node's proxy
value with args `[node, backward_idx]`. -/
def GradProtocol.add (counterAtt : Option Nat) (nodeName : String) (node : ANode) : ANode :=
  let backward_idx := counterAtt.getD 0
  { target := "grad", args := [.ref nodeName, .lit (.vint backward_idx)], kwargs := [],
    proxy_value := node.proxy_value, value := none }

/-- `GradProtocol.increment`: replaces the per-graph counter attachment with
its previous value (default 0) plus one. -/
def GradProtocol.increment (counterAtt : Option Nat) : Option Nat :=
  some (counterAtt.getD 0 + 1)

/-- `SwapProtocol.add`: creates a node attached to the given node with args
`[node, value]` and proxy value `True`. -/
def SwapProtocol.add (g : AGraph) (nodeName : String) (value : Val) : AGraph × String × ANode :=
  graphCreate g "swap" (some (.vbool true)) [.ref nodeName, .lit value] []

/-- A graph as seen by the Bridge directory: its identifier and node store. -/
structure GraphN where
  id : Int
  nodes : List (String × ANode)

/-- The shared Bridge directory: graphs by identifier, and the `release`
flag controlling eager freeing of transferred values. -/
structure BridgeDir where
  id_to_graph : List (Int × GraphN)
  release : Bool

/-- `BridgeProtocol.get_bridge`: reads the `nnsight_bridge` attachment slot
of the executing graph; a missing key is a `KeyError`, embedded as `none`
(the `has_bridge` guard in the source falls through without raising). -/
def BridgeProtocol.get_bridge (att : Option BridgeDir) : Option BridgeDir :=
  att

/-- `BridgeProtocol.has_bridge`: key-presence test of the attachment slot. -/
def BridgeProtocol.has_bridge (att : Option BridgeDir) : Bool :=
  att.isSome

/-- `BridgeProtocol.set_bridge`: plain write of the attachment slot. -/
def BridgeProtocol.set_bridge (_att : Option BridgeDir) (b : BridgeDir) : Option BridgeDir :=
  some b

/-- Node creation inside a `GraphN`, mirroring `graphCreate`. -/
def graphNCreate (g : GraphN) (target : String) (pv : Option Val) (args : List Arg)
    (kwargs : List (String × Arg)) : GraphN × String × ANode :=
  let name := target ++ "_" ++ toString g.nodes.length
  let node : ANode := { target := target, args := args, kwargs := kwargs,
                        proxy_value := pv, value := none }
  ({ g with nodes := g.nodes ++ [(name, node)] }, name, node)

/-- `BridgeProtocol.add`: installs a Lock node on `from_node` in the source
graph, then creates a node in the destination graph whose args are the
source graph's id and the lock node's name, mirroring `from_node`'s proxy
value. Returns the updated graphs, the lock node's name, and the created
bridge node with its name. -/
def BridgeProtocol.add (fromGraph : GraphN) (fromName : String) (fromNode : ANode)
    (toGraph : GraphN) : GraphN × String × GraphN × String × ANode :=
  let lockRes := graphNCreate fromGraph "lock" (some .vnone) [.ref fromName] []
  let toRes := graphNCreate toGraph "bridge" fromNode.proxy_value
    [.lit (.vint fromGraph.id), .lit (.vstr lockRes.2.1)] []
  (lockRes.1, lockRes.2.1, toRes.1, toRes.2.1, toRes.2.2)

/-- A value-publication event: `set_value` on a named node. Bridge execution
is modelled as the ordered list of the value publications it performs. -/
inductive BEvent where
  | setValue : String → Val → BEvent

/-- Application of an ordered event list to the node-value map of the
world. -/
def applyEvents (vals : String → Option Val) : List BEvent → String → Option Val
  | [], n => vals n
  | BEvent.setValue m v :: evs, n =>
    applyEvents (fun k => if k = m then some v else vals k) evs n

/-- `BridgeProtocol.execute`: resolves the Bridge directory from the
executing graph's attachment (failing when absent), looks up the source
graph by id and the lock node by name, reads the lock's locked argument
node's value, publishes it as the destination node's value, and afterwards —
only when the directory's release flag is set — clears the lock node's value
by setting it to `None`. The result is the ordered event list. -/
def BridgeProtocol.execute (att : Option BridgeDir) (destName : String) (node : ANode) :
    Option (List BEvent) := do
  let bridge ← BridgeProtocol.get_bridge att
  match node.args with
  | [.lit (.vint fromGraphId), .lit (.vstr lockName)] => do
      let fromGraph ← bridge.id_to_graph.lookup fromGraphId
      let lockNode ← fromGraph.nodes.lookup lockName
      match lockNode.args with
      | [.ref valueName] => do
          let valueNode ← fromGraph.nodes.lookup valueName
          let v ← valueNode.value
          return BEvent.setValue destName v ::
            (if bridge.release then [BEvent.setValue lockName .vnone] else [])
      | _ => none
  | _ => none

/-- A swap-and-grad graph state with no active swap attachment and trivial
node stores, used to instantiate the general theorems. -/
def G0 : SwapGraph :=
  { attachment := none, swapNodes := fun _ => { stored := .vnone, value := none },
    env := fun _ => .vnone }

/-- A graph state holding two swap nodes `s1` (stored replacement 5) and
`s2` (stored replacement 7), as in the two-Swap scenario. -/
def Gs : SwapGraph :=
  { attachment := none,
    swapNodes := fun n => if n = "s1" then { stored := .vint 5, value := none }
                          else { stored := .vint 7, value := none },
    env := fun _ => .vnone }

/-- Sub-computation `layer1`: forward maps an integer to its successor. -/
def M1 : NnModule :=
  .mk (fun args _ => match args with | [Val.vint n] => .vint (n + 1) | _ => .vnone) [] []

/-- Root object with a single sub-computation under attribute `layer1` and
no parameters. -/
def Mroot : NnModule := .mk (fun _ _ => .vnone) [("layer1", M1)] []

/-- A non-validating graph with root `Mroot` and one executed node `x`. -/
def gA : AGraph :=
  { validate := false, root_module := some Mroot,
    nodes := [("x", { target := "op", args := [], kwargs := [], proxy_value := none,
                      value := some (.vint 3) })] }

/-- The same graph in validation mode; its root module has no parameters, so
device resolution fails. -/
def gV : AGraph := { gA with validate := true }

/-- An Apply-Submodule node calling `layer1` on the value of node `x`. -/
def nodeA : ANode :=
  { target := "module", args := [.lit (.vstr "layer1"), .ref "x"], kwargs := [],
    proxy_value := none, value := none }

/-- Source graph for the Bridge scenario, holding an executed node `x`. -/
def fgraph : GraphN :=
  { id := 1, nodes := [("x", { target := "op", args := [], kwargs := [],
                               proxy_value := none, value := some (.vint 9) })] }

/-- Destination graph for the Bridge scenario. -/
def tgraph : GraphN := { id := 2, nodes := [] }

/-- Result of `BridgeProtocol.add` on the scenario graphs. -/
def addRes : GraphN × String × GraphN × String × ANode :=
  BridgeProtocol.add fgraph "x"
    { target := "op", args := [], kwargs := [], proxy_value := some (.vint 9), value := none }
    tgraph

/-- A Bridge directory registering the updated source graph, with eager
release enabled. -/
def bdir : BridgeDir := { id_to_graph := [(1, addRes.1)], release := true }
/-- Consultation with no active swap is the identity, on any sequence. -/
theorem consultList_inactive (vs : List Val) :
    ∀ g : SwapGraph, g.attachment = none → consultList g vs = (g, vs) := by
  induction vs with
  | nil => intro g h; rfl
  | cons v vs ih =>
    intro g h
    have hone : SwapProtocol.get_swap g v = (g, v) := by
      simp [SwapProtocol.get_swap, h]
    simp [consultList, hone, ih g h]

/-- While the captured counter never hits zero along the run, every
invocation decrements it and returns no replacement. -/
theorem gradRun_counting (att : Bool) (vs : List Val) :
    ∀ st : GradSt, (∀ k : Nat, k < vs.length → st.backward_idx ≠ k) →
    gradRun att st vs =
      ({ st with backward_idx := st.backward_idx - vs.length }, vs.map fun _ => none) := by
  induction vs with
  | nil => intro st h; simp [gradRun]
  | cons v vs ih =>
    intro st h
    have h0 : st.backward_idx ≠ 0 := by simpa using h 0 (by simp)
    have hstep : gradCallback att st v = ({ st with backward_idx := st.backward_idx - 1 }, none) := by
      simp [gradCallback, h0]
    have hih := ih { st with backward_idx := st.backward_idx - 1 } (by
      intro k hk
      have := h (k + 1) (by simpa using Nat.succ_lt_succ hk)
      intro hc
      apply this
      push_cast at hc ⊢
      omega)
    simp only [gradRun, hstep, hih]
    simp [Prod.ext_iff]
    omega

/-- Runs compose over list append. -/
theorem gradRun_append (att : Bool) (xs ys : List Val) :
    ∀ st, gradRun att st (xs ++ ys) =
      ((gradRun att (gradRun att st xs).1 ys).1,
        (gradRun att st xs).2 ++ (gradRun att (gradRun att st xs).1 ys).2) := by
  induction xs with
  | nil => intro st; simp [gradRun]
  | cons x xs ih => intro st; simp [gradRun, ih]

/-- C7: `GradProtocol.add` creates a node mirroring the input node's proxy
value with args exactly `[node, backward_idx]`, the counter defaulting to 0
when the attachment is absent; `GradProtocol.increment` replaces the counter
with its previous value (default 0) plus one. -/
theorem grad_add_increment_spec (counterAtt : Option Nat) (nodeName : String) (node : ANode) :
    (GradProtocol.add counterAtt nodeName node).proxy_value = node.proxy_value ∧
    (GradProtocol.add counterAtt nodeName node).args =
      [.ref nodeName, .lit (.vint (counterAtt.getD 0))] ∧
    (GradProtocol.add none nodeName node).args = [.ref nodeName, .lit (.vint 0)] ∧
    GradProtocol.increment counterAtt = some (counterAtt.getD 0 + 1) ∧
    GradProtocol.increment none = some 1 := by
  refine ⟨rfl, rfl, rfl, rfl, rfl⟩

/-- C9: `LockProtocol.add` creates a node whose single argument is the given
node and whose proxy value is `None`, and the inherited `execute` is a no-op:
it changes no node value and no attachment state. -/
theorem lock_add_noop_execute (g : AGraph) (nodeName : String) (st : GState) (n : String) :
    ((LockProtocol.add g nodeName).2.2.args = [.ref nodeName]) ∧
    ((LockProtocol.add g nodeName).2.2.proxy_value = some .vnone) ∧
    LockProtocol.execute st n = st := by
  refine ⟨rfl, rfl, rfl⟩

/-- C6: with the reserved attachment key absent, `get_module` fails instead
of returning a default, and the Bridge directory resolution of `execute`
fails instead of silently proceeding. -/
theorem missing_configuration_fails (g : AGraph) (att : Option BridgeDir)
    (destName : String) (node : ANode) :
    (g.root_module = none → ApplyModuleProtocol.get_module g = none) ∧
    (att = none →
      BridgeProtocol.get_bridge att = none ∧
      BridgeProtocol.execute att destName node = none) := by
  constructor
  · intro h
    simpa [ApplyModuleProtocol.get_module] using h
  · intro h
    subst h
    exact ⟨rfl, rfl⟩

theorem missing_configuration_fails_witness :
    ApplyModuleProtocol.get_module { validate := false, root_module := none, nodes := [] } = none ∧
    BridgeProtocol.execute none "d"
      { target := "bridge", args := [], kwargs := [], proxy_value := none, value := none } = none := by
  have h := missing_configuration_fails
    { validate := false, root_module := none, nodes := [] } none "d"
    { target := "bridge", args := [], kwargs := [], proxy_value := none, value := none }
  exact ⟨h.1 rfl, (h.2 rfl).2⟩

theorem setSwapValue_stored (g : SwapGraph) (n : String) (v : Option Val) (m : String) :
    ((setSwapValue g n v).swapNodes m).stored = (g.swapNodes m).stored := by
  simp only [setSwapValue]
  split <;> rfl

theorem setSwapValue_value_self (g : SwapGraph) (n : String) (v : Option Val) :
    ((setSwapValue g n v).swapNodes n).value = v := by
  simp [setSwapValue]

theorem swapExecute_eq_of_attachment (g : SwapGraph) (m n : String) (h : g.attachment = some m) :
    SwapProtocol.execute g n =
      { setSwapValue g m (some (.vbool false)) with attachment := some n } := by
  unfold SwapProtocol.execute
  rw [h]

theorem swapExecute_fields (g : SwapGraph) (n : String) :
    (SwapProtocol.execute g n).attachment = some n ∧
    (SwapProtocol.execute g n).env = g.env ∧
    ∀ m, ((SwapProtocol.execute g n).swapNodes m).stored = (g.swapNodes m).stored := by
  unfold SwapProtocol.execute
  cases hatt : g.attachment with
  | none => exact ⟨rfl, rfl, fun m => rfl⟩
  | some m0 => exact ⟨rfl, rfl, fun m => setSwapValue_stored g m0 (some (.vbool false)) m⟩

/-- C2: `get_swap` with no active swap returns the input unchanged; with an
active swap it returns the stored replacement unwrapped to real values and
relocated to the input's tensor device when one exists, sets the swap node's
value to `True` and clears the active-swap attachment, after which every
later consultation returns its input unchanged (until a new Swap executes,
which would change the state). -/
theorem swap_get_swap_one_shot (g : SwapGraph) (n : String) (value : Val) (vs : List Val) :
    (g.attachment = none → SwapProtocol.get_swap g value = (g, value)) ∧
    (g.attachment = some n →
      (SwapProtocol.get_swap g value).2 =
        (match findDevice value with
         | some d => relocate d (unwrapRefs g.env (g.swapNodes n).stored)
         | none => unwrapRefs g.env (g.swapNodes n).stored) ∧
      (((SwapProtocol.get_swap g value).1).swapNodes n).value = some (.vbool true) ∧
      ((SwapProtocol.get_swap g value).1).attachment = none ∧
      consultList (SwapProtocol.get_swap g value).1 vs = ((SwapProtocol.get_swap g value).1, vs)) := by
  constructor
  · intro h
    simp [SwapProtocol.get_swap, h]
  · intro h
    have hres : ((SwapProtocol.get_swap g value).1).attachment = none := by
      simp [SwapProtocol.get_swap, h]
    refine ⟨?_, ?_, hres, consultList_inactive vs _ hres⟩
    · simp [SwapProtocol.get_swap, h]
    · simp [SwapProtocol.get_swap, h, setSwapValue_value_self]

theorem swap_get_swap_one_shot_witness :
    (SwapProtocol.get_swap Gs .vnone = (Gs, .vnone)) ∧
    ((SwapProtocol.get_swap { Gs with attachment := some "s1" } (.vint 3)).2 = .vint 5 ∧
      (((SwapProtocol.get_swap { Gs with attachment := some "s1" } (.vint 3)).1).swapNodes "s1").value
        = some (.vbool true) ∧
      ((SwapProtocol.get_swap { Gs with attachment := some "s1" } (.vint 3)).1).attachment = none ∧
      consultList (SwapProtocol.get_swap { Gs with attachment := some "s1" } (.vint 3)).1 [.vint 8]
        = ((SwapProtocol.get_swap { Gs with attachment := some "s1" } (.vint 3)).1, [.vint 8])) := by
  have h1 := (swap_get_swap_one_shot Gs "s1" .vnone []).1 rfl
  have h2 := (swap_get_swap_one_shot { Gs with attachment := some "s1" } "s1" (.vint 3) [.vint 8]).2 rfl
  exact ⟨h1, h2.1, h2.2.1, h2.2.2.1, h2.2.2.2⟩

/-- C5: executing a Swap node first deactivates the currently active swap by
setting its value to `False`, then installs itself as the active swap; after
two Swaps execute in sequence the second is active, the first's value is
`False`, and consultation returns a value derived from the second Swap's
stored replacement. -/
theorem swap_execute_supersede (g : SwapGraph) (n1 n2 : String) (value : Val) :
    ((SwapProtocol.execute (SwapProtocol.execute g n1) n2).attachment = some n2) ∧
    (((SwapProtocol.execute (SwapProtocol.execute g n1) n2).swapNodes n1).value
       = some (.vbool false)) ∧
    (((SwapProtocol.execute (SwapProtocol.execute g n1) n2).swapNodes n2).stored
       = (g.swapNodes n2).stored) ∧
    ((SwapProtocol.get_swap (SwapProtocol.execute (SwapProtocol.execute g n1) n2) value).2 =
       (match findDevice value with
        | some d => relocate d (unwrapRefs g.env (g.swapNodes n2).stored)
        | none => unwrapRefs g.env (g.swapNodes n2).stored)) := by
  have h1 := swapExecute_fields g n1
  have hatt1 : (SwapProtocol.execute g n1).attachment = some n1 := h1.1
  have hex2 : SwapProtocol.execute (SwapProtocol.execute g n1) n2 =
      { setSwapValue (SwapProtocol.execute g n1) n1 (some (.vbool false)) with
        attachment := some n2 } :=
    swapExecute_eq_of_attachment (SwapProtocol.execute g n1) n1 n2 hatt1
  have hstored : ∀ m,
      ((SwapProtocol.execute (SwapProtocol.execute g n1) n2).swapNodes m).stored
        = (g.swapNodes m).stored := by
    intro m
    rw [hex2]
    show ((setSwapValue (SwapProtocol.execute g n1) n1 (some (.vbool false))).swapNodes m).stored
      = (g.swapNodes m).stored
    rw [setSwapValue_stored]
    exact h1.2.2 m
  have henv : (SwapProtocol.execute (SwapProtocol.execute g n1) n2).env = g.env := by
    rw [hex2]
    exact h1.2.1
  have hattach : (SwapProtocol.execute (SwapProtocol.execute g n1) n2).attachment = some n2 := by
    rw [hex2]
  refine ⟨hattach, ?_, hstored n2, ?_⟩
  · rw [hex2]
    exact setSwapValue_value_self (SwapProtocol.execute g n1) n1 (some (.vbool false))
  · simp [SwapProtocol.get_swap, hattach, henv, hstored n2]

/-- C1: a Grad callback registered with counter `i` decrements the counter
and returns no replacement on each of the first `i` invocations (leaving the
node's value unset when the sequence is shorter), and on the `(i+1)`-th
invocation sets the node's value to the incoming gradient, consults Swap
only when the node has an attached listener, unregisters the hook, and
marks the counter `-1` so the capture fires at most once. -/
theorem grad_capture_sequence (i : Nat) (g : SwapGraph) (att : Bool) (ws : List Val) (v : Val) :
    (ws.length ≤ i →
      gradRun att (GradProtocol.execute g i) ws =
        ({ backward_idx := (i : Int) - ws.length, nodeValue := none, hookActive := true,
           graph := g }, ws.map fun _ => none)) ∧
    (ws.length = i →
      gradRun att (GradProtocol.execute g i) (ws ++ [v]) =
        ({ backward_idx := -1, nodeValue := some v, hookActive := false,
           graph := (if att then SwapProtocol.get_swap g v else (g, v)).1 },
         (ws.map fun _ => none) ++ [some (if att then SwapProtocol.get_swap g v else (g, v)).2])) := by
  constructor
  · intro h
    have hrun := gradRun_counting att ws (GradProtocol.execute g i) (by
      intro k hk
      simp only [GradProtocol.execute]
      intro hc
      have hki : (k : Int) < (i : Int) := by exact_mod_cast lt_of_lt_of_le hk h
      omega)
    simpa [GradProtocol.execute] using hrun
  · intro h
    subst h
    have hrun := gradRun_counting att ws (GradProtocol.execute g ws.length) (by
      intro k hk
      simp only [GradProtocol.execute]
      intro hc
      have hki : (k : Int) < (ws.length : Int) := by exact_mod_cast hk
      omega)
    rw [gradRun_append att ws [v], hrun]
    simp [gradRun, gradCallback, GradProtocol.execute]

theorem grad_capture_sequence_witness :
    (gradRun false (GradProtocol.execute G0 1) [.vint 10] =
      ({ backward_idx := 0, nodeValue := none, hookActive := true, graph := G0 }, [none])) ∧
    (gradRun false (GradProtocol.execute G0 1) [.vint 10, .vint 20] =
      ({ backward_idx := -1, nodeValue := some (.vint 20), hookActive := false, graph := G0 },
       [none, some (.vint 20)])) := by
  have h := grad_capture_sequence 1 G0 false [.vint 10] (.vint 20)
  have h1 := h.1 (by decide)
  have h2 := h.2 (by decide)
  constructor
  · simpa using h1
  · simpa using h2

/-- C10: once the capture branch has run, the captured counter is `-1` and
every further invocation of the callback only decrements it and returns no
replacement, so the counter never returns to zero, the node's value is never
set a second time, and no replacement is ever returned again. -/
theorem grad_post_capture_harmless (att : Bool) (st : GradSt) (v : Val) (vs : List Val)
    (h : st.backward_idx = 0) :
    ((gradCallback att st v).1.backward_idx = -1) ∧
    ((gradCallback att st v).1.nodeValue = some v) ∧
    (gradRun att (gradCallback att st v).1 vs =
      ({ (gradCallback att st v).1 with backward_idx := -1 - (vs.length : Int) },
       vs.map fun _ => none)) ∧
    ((-1 : Int) - (vs.length : Int) < 0) := by
  have hidx : (gradCallback att st v).1.backward_idx = -1 := by
    simp [gradCallback, h]
  have hval : (gradCallback att st v).1.nodeValue = some v := by
    simp [gradCallback, h]
  have hrun := gradRun_counting att vs (gradCallback att st v).1 (by
    intro k hk
    rw [hidx]
    intro hc
    omega)
  rw [hidx] at hrun
  exact ⟨hidx, hval, hrun, by omega⟩

theorem grad_post_capture_harmless_witness :
    (((gradCallback false (GradProtocol.execute G0 0) (.vint 3)).1.backward_idx = -1) ∧
     ((gradCallback false (GradProtocol.execute G0 0) (.vint 3)).1.nodeValue = some (.vint 3)) ∧
     (gradRun false (gradCallback false (GradProtocol.execute G0 0) (.vint 3)).1 [.vint 4, .vint 5] =
       ({ (gradCallback false (GradProtocol.execute G0 0) (.vint 3)).1 with
          backward_idx := -1 - (([Val.vint 4, Val.vint 5].length : Nat) : Int) },
        [Val.vint 4, Val.vint 5].map fun _ => none)) ∧
     ((-1 : Int) - (([Val.vint 4, Val.vint 5].length : Nat) : Int) < 0)) :=
  grad_post_capture_harmless false (GradProtocol.execute G0 0) (.vint 3) [.vint 4, .vint 5] rfl

/-- C3: `BridgeProtocol.add` installs a Lock node on the source node and
creates a node in the destination graph whose args are exactly the source
graph's id and the lock node's name; `BridgeProtocol.execute` publishes the
locked source node's value as the destination node's value and, only when
the directory's release flag is set, clears the lock's value strictly after
the destination value is set (the event list is ordered). -/
theorem bridge_add_execute_spec (fromGraph toGraph : GraphN) (fromName : String)
    (fromNode : ANode) (bridge : BridgeDir) (destName : String) (bnode : ANode)
    (fid : Int) (lockName : String) (fg : GraphN) (lockNode valueNode : ANode)
    (vn : String) (v : Val) :
    ((BridgeProtocol.add fromGraph fromName fromNode toGraph).1.nodes =
        fromGraph.nodes ++
          [((BridgeProtocol.add fromGraph fromName fromNode toGraph).2.1,
            { target := "lock", args := [.ref fromName], kwargs := [],
              proxy_value := some .vnone, value := none })] ∧
      (BridgeProtocol.add fromGraph fromName fromNode toGraph).2.2.2.2.args =
        [.lit (.vint fromGraph.id),
         .lit (.vstr (BridgeProtocol.add fromGraph fromName fromNode toGraph).2.1)] ∧
      (BridgeProtocol.add fromGraph fromName fromNode toGraph).2.2.2.2.proxy_value =
        fromNode.proxy_value) ∧
    (bnode.args = [.lit (.vint fid), .lit (.vstr lockName)] →
      bridge.id_to_graph.lookup fid = some fg →
      fg.nodes.lookup lockName = some lockNode →
      lockNode.args = [.ref vn] →
      fg.nodes.lookup vn = some valueNode →
      valueNode.value = some v →
      BridgeProtocol.execute (some bridge) destName bnode =
        some (BEvent.setValue destName v ::
          (if bridge.release then [BEvent.setValue lockName .vnone] else []))) := by
  constructor
  · exact ⟨rfl, rfl, rfl⟩
  · intro hargs hfg hlock hlargs hvn hv
    simp [BridgeProtocol.execute, BridgeProtocol.get_bridge, hargs, hfg, hlock, hlargs, hvn, hv]

theorem bridge_add_execute_spec_witness :
    BridgeProtocol.execute (some bdir) "bridge_0" addRes.2.2.2.2 =
      some (BEvent.setValue "bridge_0" (.vint 9) ::
        (if bdir.release then [BEvent.setValue "lock_1" .vnone] else [])) := by
  have h := (bridge_add_execute_spec fgraph tgraph "x"
    { target := "op", args := [], kwargs := [], proxy_value := some (.vint 9), value := none }
    bdir "bridge_0" addRes.2.2.2.2 1 "lock_1" addRes.1
    { target := "lock", args := [.ref "x"], kwargs := [], proxy_value := some .vnone, value := none }
    { target := "op", args := [], kwargs := [], proxy_value := none, value := some (.vint 9) }
    "x" (.vint 9)).2
  exact h rfl rfl rfl rfl rfl rfl

/-- C4: executing an Apply-Submodule node resolves the argument nodes to
real values, splits off the first argument as the attribute path, fetches
the sub-computation by that path from the root object in the graph's
attachments, calls its forward with the remaining real values, and stores
the result as the node's value. -/
theorem apply_module_execute_spec (g : AGraph) (node : ANode) (module_path : String)
    (rest : List Arg) (vals : List Val) (root m : NnModule)
    (hargs : node.args = .lit (.vstr module_path) :: rest)
    (hkw : node.kwargs = [])
    (hvals : resolveArgs (nodeEnv g) rest = some vals)
    (hroot : ApplyModuleProtocol.get_module g = some root)
    (hfetch : fetchAttr root module_path = some m) :
    ApplyModuleProtocol.execute g node = some { node with value := some (m.fwd vals []) } := by
  simp [ApplyModuleProtocol.execute, ApplyModuleProtocol.call_module, hargs, hkw, hvals, hroot,
    hfetch, resolveArgs, resolveKwargs, resolveArg]

theorem apply_module_execute_spec_witness :
    ApplyModuleProtocol.execute gA nodeA = some { nodeA with value := some (.vint 4) } := by
  have h := apply_module_execute_spec gA nodeA "layer1" [.ref "x"] [.vint 3] Mroot M1
    rfl rfl rfl rfl rfl
  simpa using h

/-- C8: when the graph is not validating, the created node's proxy value is
left unset; when validating and device resolution fails, the failure is
non-fatal — the device degrades to unknown, placeholder arguments are built
without a device, and `add` still creates and returns the node. -/
theorem apply_module_add_validation (g : AGraph) (module_path : String) (args : List Arg)
    (kwargs : List (String × Arg)) (pargs : List Val) (pkwargs : List (String × Val)) (pv : Val) :
    (g.validate = false →
      ApplyModuleProtocol.add g module_path args kwargs =
        some (graphCreate g "module" none (.lit (.vstr module_path) :: args) kwargs) ∧
      (graphCreate g "module" none (.lit (.vstr module_path) :: args) kwargs).2.2.proxy_value
        = none) ∧
    (g.validate = true →
      resolveDevice g = none →
      prepareProxyValues g none args = some pargs →
      prepareProxyKwargs g none kwargs = some pkwargs →
      ApplyModuleProtocol.call_module g module_path pargs pkwargs = some pv →
      ApplyModuleProtocol.add g module_path args kwargs =
        some (graphCreate g "module" (some pv) (.lit (.vstr module_path) :: args) kwargs)) := by
  constructor
  · intro h
    exact ⟨by simp [ApplyModuleProtocol.add, h], rfl⟩
  · intro hval hdev hpargs hpkwargs hcall
    simp [ApplyModuleProtocol.add, hval, hdev, hpargs, hpkwargs, hcall]

theorem apply_module_add_validation_witness :
    (ApplyModuleProtocol.add gA "layer1" [.lit (.vint 3)] [] =
      some (graphCreate gA "module" none [.lit (.vstr "layer1"), .lit (.vint 3)] [])) ∧
    (ApplyModuleProtocol.add gV "layer1" [.lit (.vint 3)] [] =
      some (graphCreate gV "module" (some (.vint 4)) [.lit (.vstr "layer1"), .lit (.vint 3)] [])) := by
  have h1 := (apply_module_add_validation gA "layer1" [.lit (.vint 3)] [] [.vint 3] [] (.vint 4)).1 rfl
  have h2 := (apply_module_add_validation gV "layer1" [.lit (.vint 3)] [] [.vint 3] [] (.vint 4)).2
    rfl rfl rfl rfl rfl
  exact ⟨h1.1, h2⟩
